import Mathlib

/-! Verification of the multicentric_harmonization training code.

Shallow embedding of the bespoke logic of the repository
`jeanfelixM/multicentric_harmonization`:

* the latent-channel split and the loss bookkeeping of
  `Train.train_step` (src/harmonization/swin_contrastive/train.py),
* the contrastive labelling of `Train.contrastive_step`,
* the event trace of the training loop `Train.train` (dataset cache
  lifecycle, epoch counter, guarded plotting call),
* the group-aware train/test split `group_data` / `create_datasets`,
* the CSV feature dump of `run_inference` (src/harmonization/torch_oscar.py),
* the `acc_dict` bookkeeping that makes `Train.train`'s final
  `return self.acc_dict['best_test_acc']` fail.

Tensors are modelled along the dimension the code manipulates (a list of
channel slices for the bottleneck split, one abstract scalar per computed
loss value); floats are modelled as rationals.
-/

namespace Harmonization

/-! ## The bottleneck split in `Train.train_step`

A bottleneck tensor `latents[4]` of shape `(B, C, D, H, W)` is modelled by
its list of `C` channel slices (the code only ever splits / concatenates
along `dim=1`).  `torch.split(t, [k, C - k], dim=1)` returns the first `k`
channels and the remaining `C - k` channels. -/

/-- Embedding of `torch.split(latents4, [k, latents4.size(1) - k], dim=1)`:
the first component is the first `k` channel slices, the second component the
remaining ones. -/
def torchSplit2 {α : Type} (latents4 : List α) (k : Nat) : List α × List α :=
  (latents4.take k, latents4.drop k)

/-- The latent-handling dataflow of `Train.train_step`
(src/harmonization/swin_contrastive/train.py, lines 280-298):

```python
nlatents4, bottleneck = torch.split(latents[4],
    [self.contrastive_latentsize, latents[4].size(1) - self.contrastive_latentsize], dim=1)
...
reconstructed_imgs = self.reconstruct_image(latents[4])
```

`nlatents4` is the contrastive subspace, `bottleneck` the reconstruction
subspace, and `reconArg` is the tensor actually passed to
`self.reconstruct_image`. -/
structure StepDataflow (α : Type) where
  nlatents4 : List α
  bottleneck : List α
  reconArg : List α
deriving DecidableEq, Repr

/-- Embedding of the latent handling of `Train.train_step`: the split of
`latents[4]` at `contrastive_latentsize` channels, together with the argument
passed to `reconstruct_image` — which in the source is `latents[4]` itself. -/
def trainStepDataflow {α : Type} (latents4 : List α) (contrastive_latentsize : Nat) :
    StepDataflow α :=
  let split := torchSplit2 latents4 contrastive_latentsize
  { nlatents4 := split.fst
    bottleneck := split.snd
    reconArg := latents4 }

/-! ## The loss bookkeeping in `Train.train_step`

`losses_dict` is modelled by a record of rational loss values.  In the
source (lines 286-322) the calls `self.contrastive_step(...)` and
`self.classification_step(...)` are commented out: on each batch the code
sets `classification_loss` to the constant `0.0`, computes only the
reconstruction loss, leaves `contrast_loss` at whatever value the dict held
before the step, and then sums the three dict entries into `total_loss`
before `backward()`. -/

/-- The loss entries of `self.losses_dict` manipulated by `train_step`. -/
structure LossesDict where
  total_loss : ℚ
  classification_loss : ℚ
  contrast_loss : ℚ
  reconstruction_loss : ℚ
deriving DecidableEq, Repr

/-- The dict `self.losses_dict` as initialised in `Train.__init__` (line 69), extended
with the `reconstruction_loss` entry at `0` before its first write. -/
def initLossesDict : LossesDict :=
  { total_loss := 0, classification_loss := 0, contrast_loss := 0, reconstruction_loss := 0 }

/-- Embedding of the loss bookkeeping of `Train.train_step`
(src/harmonization/swin_contrastive/train.py, lines 265-322), faithful to the
executed statements:

```python
accu = 0
self.losses_dict['classification_loss'] = 0.0          # contrastive_step and
...                                                     # classification_step are
self.reconstruction_step(reconstructed_imgs, imgs_s)    # commented out
if self.epoch >= 0:
    self.losses_dict['total_loss'] = \
    self.losses_dict['classification_loss'] + self.losses_dict['contrast_loss'] \
    + self.losses_dict['reconstruction_loss']
else:
    self.losses_dict['total_loss'] = self.losses_dict['contrast_loss']
```

`reconsLossVal` is the value computed by `reconstruction_step` on the batch. -/
def trainStepLosses (epoch : Int) (prev : LossesDict) (reconsLossVal : ℚ) : LossesDict :=
  let d1 : LossesDict := { prev with classification_loss := 0 }
  let d2 : LossesDict := { d1 with reconstruction_loss := reconsLossVal }
  if epoch ≥ 0 then
    { d2 with total_loss :=
        d2.classification_loss + d2.contrast_loss + d2.reconstruction_loss }
  else
    { d2 with total_loss := d2.contrast_loss }

/-! ## The contrastive labelling in `Train.contrastive_step`

(src/harmonization/swin_contrastive/train.py, lines 339-379.)  The loop
iterates over `torch.unique(ids)` (the distinct sample ids, in increasing
order).  For the unique id `u` processed with the running `offset`, the
sub-batch `latents[4][ids == u]` contributes `count(u) * n` embedding rows,
where `n = D*H*W` is the number of spatial sub-patches per sample; the label
tensor for those rows is `torch.full((n,), offset).repeat(count(u))`, i.e.
every row gets the single label `offset`; then `offset += n`.  A row is
modelled by the pair (id of the sample it comes from, label it receives). -/

/-- One embedding row passed to the contrastive loss: the id of the batch
sample whose sub-patch embedding it is, and the label assigned to it. -/
structure ContrastiveRow where
  sampleId : Nat
  label : Nat
deriving DecidableEq, Repr

/-- Embedding of `torch.unique(ids)`: the distinct values of `ids` in increasing order. -/
def torchUnique (ids : List Nat) : List Nat :=
  List.insertionSort (fun a b => a ≤ b) ids.dedup

/-- The loop body of `contrastive_step` over the remaining unique ids, with
the running `offset`: the id `u` contributes `ids.count u * n` rows all
labelled `offset`. -/
def contrastiveRowsAux (ids : List Nat) (n : Nat) : List Nat → Nat → List ContrastiveRow
  | [], _ => []
  | u :: rest, offset =>
    List.replicate (ids.count u * n) ⟨u, offset⟩ ++ contrastiveRowsAux ids n rest (offset + n)

/-- The (sample id, contrastive label) pairs of all embedding rows built by
`contrastive_step` from a batch whose samples carry `ids`, each sample
contributing `n` spatial sub-patch embeddings. -/
def contrastiveRows (ids : List Nat) (n : Nat) : List ContrastiveRow :=
  contrastiveRowsAux ids n (torchUnique ids) 0

/-! ## The group-aware split: `group_data` and `create_datasets`

(src/harmonization/swin_contrastive/train.py, lines 504-551.)  A dataset
item is reduced to the fields this code inspects:
`item['info']['SeriesDescription']` and the `item['group_id']` annotation
that `group_data` adds in place. -/

/-- A dataset item as seen by `group_data` / `create_datasets`. -/
structure Item where
  seriesDescription : String
  groupId : Option Nat := none
deriving DecidableEq, Repr

instance : Inhabited Item := ⟨⟨"", none⟩⟩

/-- The group key of an item in `'scanner'` mode:
`series_description[:2]` (line 518). -/
def groupKey (it : Item) : String := it.seriesDescription.take 2

/-- The loop of `group_data` (lines 515-526): `seen` is the state of
`group_map` represented by its keys in first-insertion order, so that the id
of a key is its index in `seen`; a new key is appended and receives id
`len(group_map)`.  Returns the list of assigned group ids. -/
def groupIdsAux (seen : List String) : List Item → List Nat
  | [] => []
  | it :: rest =>
    if groupKey it ∈ seen then seen.indexOf (groupKey it) :: groupIdsAux seen rest
    else seen.length :: groupIdsAux (seen ++ [groupKey it]) rest

/-- Embedding of `group_data(data_list, mode='scanner')` (lines 504-528): it
annotates each item in place with its `group_id` and returns
`np.array(group_ids)`.  The result is the annotated item list (the mutated
`data_list`) paired with the returned id array. -/
def group_data (l : List Item) : List Item × List Nat :=
  let ids := groupIdsAux [] l
  ((l.zip ids).map fun p => { p.fst with groupId := some p.snd }, ids)

/-- The state of `group_map` (its keys in first-insertion order) after
processing `items`, starting from `seen`. -/
def extendSeen (seen : List String) (items : List Item) : List String :=
  items.foldl (fun s it => if groupKey it ∈ s then s else s ++ [groupKey it]) seen

/-- Model of sklearn's `GroupShuffleSplit(n_splits=1, test_size=..,
random_state=..).split(data_list, groups=groups)` (lines 538-539), the one
external call of `create_datasets`: the library's contract is that the test
indices are exactly the positions whose group value falls in a sampled set
of groups; the sampled set is abstracted as the predicate `toTest` on group
values (so the theorems below hold for every random draw).  Returns
`(train_idx, test_idx)`. -/
def groupShuffleSplit (groups : List Nat) (toTest : Nat → Bool) : List Nat × List Nat :=
  ((List.range groups.length).filter fun i => !toTest (groups.getD i 0),
   (List.range groups.length).filter fun i => toTest (groups.getD i 0))

/-- Embedding of `create_datasets(data_list, test_size, seed)` (lines
530-551): if `test_size <= 0.00000001` it returns `(data_list, [])` at once,
otherwise it runs `group_data`, splits the indices with `GroupShuffleSplit`,
and gathers `[data_list[i] for i in train_idx]` and
`[data_list[i] for i in test_idx]` (the items of the mutated, annotated
list). -/
def create_datasets (l : List Item) (test_size : ℚ) (toTest : Nat → Bool) :
    List Item × List Item :=
  if test_size ≤ 1 / 100000000 then (l, [])
  else
    let gd := group_data l
    let idx := groupShuffleSplit gd.snd toTest
    (idx.fst.map fun i => gd.fst.getD i default,
     idx.snd.map fun i => gd.fst.getD i default)

/-! ## The event trace of `Train.train`

(src/harmonization/swin_contrastive/train.py, lines 215-245.)  The loop is
modelled by the sequence of externally visible events it performs.  The
internal data-loader iteration of `plot_latent_space` is abstracted into the
single plot event; a raising `plot_latent_space` call is caught by the
`try/except` and logged (line 235), which the trace records as a
`plotError` event in place of the `plot` event. -/

/-- The observable events of `Train.train`. -/
inductive Ev where
  | startTrain
  | startTest
  | batch
  | epochDone (e : Nat)
  | schedStep
  | updateCache
  | plot (e : Nat)
  | plotError (e : Nat)
  | shutdownTrain
  | shutdownTest
deriving DecidableEq, Repr

/-- One iteration of the `while self.epoch < self.num_epoch` loop, entered
with `self.epoch = e`: `train_epoch()` iterates the `nb` batches of the
train loader and increments the epoch counter to `e + 1`; the
log-summary block (lines 224-228) is `pass`; then `lr_scheduler.step()`,
`self.dataset.update_cache()`, and — when the incremented epoch counter is a
multiple of 5 — the guarded `self.plot_latent_space(self.epoch)` call, which
raises iff `fails (e + 1)` and is then caught and logged. -/
def loopBody (fails : Nat → Bool) (nb : Nat) (e : Nat) : List Ev :=
  List.replicate nb Ev.batch ++ [Ev.epochDone (e + 1), Ev.schedStep, Ev.updateCache] ++
    (if (e + 1) % 5 = 0 then
      (if fails (e + 1) then [Ev.plotError (e + 1)] else [Ev.plot (e + 1)])
    else [])

/-- The `while` loop of `Train.train` from epoch counter `e` up to
`numEpoch`. -/
def runEpochs (fails : Nat → Bool) (nb : Nat) (numEpoch : Nat) (e : Nat) : List Ev :=
  if _h : e < numEpoch then
    loopBody fails nb e ++ runEpochs fails nb numEpoch (e + 1)
  else []
termination_by numEpoch - e

/-- The event trace of `Train.train` (lines 215-245): `start()` on the train
and the test dataset, the loop from `self.epoch = 0`, then `shutdown()` on
both datasets. -/
def trainTrace (fails : Nat → Bool) (nb : Nat) (numEpoch : Nat) : List Ev :=
  [Ev.startTrain, Ev.startTest] ++ runEpochs fails nb numEpoch 0 ++
    [Ev.shutdownTrain, Ev.shutdownTest]

/-- The lifecycle events of the cached train dataset, plus the batch
iterations: the events claim C7 constrains. -/
def isLifecycleEv : Ev → Bool
  | Ev.startTrain => true
  | Ev.batch => true
  | Ev.epochDone _ => true
  | Ev.updateCache => true
  | Ev.shutdownTrain => true
  | _ => false

/-- Forget whether a plotting call succeeded or was caught: both map to the
same marker; every other event is kept. -/
def scrubPlot : Ev → Ev
  | Ev.plotError e => Ev.plot e
  | ev => ev

/-! ## The CSV feature dump of `run_inference`

(src/harmonization/torch_oscar.py, lines 58-79.) -/

/-- The per-batch data `run_inference` reads when writing one CSV record;
`deepfeatures` stands for the rendering of `latentrep`, the flattened model
output on the batch image. -/
structure BatchRecord where
  seriesNumber : String
  deepfeatures : String
  roi : String
  seriesDescription : String
  manufacturerModelName : String
  manufacturer : String
  sliceThickness : String
deriving DecidableEq, Repr

/-- The `fieldnames` list of line 59, which `writer.writeheader()` writes as
the header row. -/
def csvFieldnames : List String :=
  ["SeriesNumber", "deepfeatures", "ROI", "SeriesDescription",
   "ManufacturerModelName", "Manufacturer", "SliceThickness"]

/-- One `writer.writerow(record)` call (lines 70-79): `csv.DictWriter` lays
the record's values out in `fieldnames` order. -/
def recordRow (b : BatchRecord) : List String :=
  [b.seriesNumber, b.deepfeatures, b.roi, b.seriesDescription,
   b.manufacturerModelName, b.manufacturer, b.sliceThickness]

/-- The CSV file produced by `run_inference`: its name (line 58) and its
rows — the header, then one record per processed batch. -/
def runInferenceCsv (batches : List BatchRecord) : String × List (List String) :=
  ("torch_normalized_deepfeaturesoscar.csv", csvFieldnames :: batches.map recordRow)

/-! ## `acc_dict` and the final return of `Train.train` -/

/-- A Python exception, as far as this code can raise one at its final
statement. -/
inductive PyErr where
  | keyError (k : String)
deriving DecidableEq, Repr

/-- Reading `d[k]` from a Python dict modelled as an association list:
`none` means the key is absent and the read raises `KeyError`. -/
def dictLookup (d : List (String × ℚ)) (k : String) : Option ℚ :=
  (d.find? fun p => p.fst == k).map fun p => p.snd

/-- Writing `d[k] = v` to a Python dict modelled as an association list. -/
def dictInsert (d : List (String × ℚ)) (k : String) (v : ℚ) : List (String × ℚ) :=
  if d.any fun p => p.fst == k then
    d.map fun p => if p.fst == k then (k, v) else p
  else d ++ [(k, v)]

/-- The dict `self.acc_dict` as initialised in `Train.__init__` (line 68):
`{'src_best_train_acc': 0, 'src_best_test_acc': 0, 'tgt_best_test_acc': 0}`. -/
def accDictInit : List (String × ℚ) :=
  [("src_best_train_acc", 0), ("src_best_test_acc", 0), ("tgt_best_test_acc", 0)]

/-- The write `self.acc_dict['best_test_acc'] = avg_test_accuracy` performed
by `Train.test_epoch` (line 410) — the only writer of that key in the file.
`train()` never calls `test_epoch`: the call at line 225 is commented out. -/
def test_epoch_accDictWrite (d : List (String × ℚ)) (avg : ℚ) : List (String × ℚ) :=
  dictInsert d "best_test_acc" avg

/-- The effect of one iteration of `Train.train`'s loop on `self.acc_dict`:
the executed statements (`train_epoch`, the `pass` log block,
`lr_scheduler.step()`, `update_cache()`, the guarded `plot_latent_space`)
neither read nor write `acc_dict`, so an iteration leaves it unchanged. -/
def loopBodyAccDict (d : List (String × ℚ)) : List (String × ℚ) := d

/-- The dict `self.acc_dict` after `numEpoch` completed iterations of the loop of
`Train.train`, starting from its `__init__` value. -/
def trainAccDict : Nat → List (String × ℚ)
  | 0 => accDictInit
  | n + 1 => loopBodyAccDict (trainAccDict n)

/-- The final statement of `Train.train` (line 245),
`return self.acc_dict['best_test_acc']`: a present key returns its value, a
missing key raises `KeyError`. -/
def trainReturn (numEpoch : Nat) : Except PyErr ℚ :=
  match dictLookup (trainAccDict numEpoch) "best_test_acc" with
  | some v => Except.ok v
  | none => Except.error (PyErr.keyError "best_test_acc")

end Harmonization

namespace Harmonization

/-! ### Theorems about the split and the losses -/

/-- C4. For every bottleneck tensor `latents[4]` with channel dimension
`C` and every `contrastive_latentsize` `k` with `0 ≤ k ≤ C`, the split in
`train_step` partitions the channel dimension: the contrastive part has
exactly `k` channels, the reconstruction part has exactly `C - k` channels,
and concatenating the two parts along the channel dimension restores the
original tensor. -/
theorem trainStep_split_partitions_channels {α : Type} (latents4 : List α) (k : Nat)
    (hk : k ≤ latents4.length) :
    (trainStepDataflow latents4 k).nlatents4.length = k ∧
    (trainStepDataflow latents4 k).bottleneck.length = latents4.length - k ∧
    (trainStepDataflow latents4 k).nlatents4 ++ (trainStepDataflow latents4 k).bottleneck
      = latents4 := by
  refine ⟨?_, ?_, ?_⟩
  · simpa [trainStepDataflow, torchSplit2] using hk
  · simp [trainStepDataflow, torchSplit2]
  · simp [trainStepDataflow, torchSplit2]

/-- Witness for C4 at a concrete tensor of 3 channels split at `k = 2`. -/
theorem trainStep_split_partitions_channels_witness :
    (trainStepDataflow [10, 20, 30] 2).nlatents4.length = 2 ∧
    (trainStepDataflow [10, 20, 30] 2).bottleneck.length = [10, 20, 30].length - 2 ∧
    (trainStepDataflow [10, 20, 30] 2).nlatents4 ++ (trainStepDataflow [10, 20, 30] 2).bottleneck
      = [10, 20, 30] :=
  trainStep_split_partitions_channels [10, 20, 30] 2 (by decide)

/-- C3, counterexample. The claim says `reconstruct_image` receives the
reconstruction-bottleneck subspace (the channels of `latents[4]` not assigned
to the contrastive subspace).  At the concrete bottleneck `[10, 20]` with
`contrastive_latentsize = 1`, the argument the code passes is the whole
tensor `[10, 20]`, not the reconstruction subspace `[20]`. -/
theorem reconstruct_input_not_bottleneck_part :
    (trainStepDataflow [10, 20] 1).reconArg ≠ (trainStepDataflow [10, 20] 1).bottleneck := by
  decide

/-- C3, amended. In every training step the input to `reconstruct_image`
is the *whole* bottleneck tensor `latents[4]` — the concatenation of the
contrastive subspace and the reconstruction subspace produced by the split —
not the reconstruction subspace alone. -/
theorem reconstruct_input_is_whole_bottleneck {α : Type} (latents4 : List α) (k : Nat) :
    (trainStepDataflow latents4 k).reconArg
      = (trainStepDataflow latents4 k).nlatents4 ++ (trainStepDataflow latents4 k).bottleneck := by
  simp [trainStepDataflow, torchSplit2]

/-- C1, counterexample. The claim says `total_loss` is the sum of the
contrastive, classification and reconstruction losses *each computed on the
batch*.  Take a batch on which the contrastive loss computation would yield
`1`, the classification loss computation would yield `1`, and the
reconstruction loss computation yields `5`, starting from the initial
`losses_dict`: the code produces `total_loss = 5`, not `1 + 1 + 5 = 7`,
because the contrastive and classification loss computations are never run
(`contrast_loss` keeps its previous value `0`, `classification_loss` is set
to the constant `0.0`). -/
theorem total_loss_not_sum_of_batch_losses :
    (trainStepLosses 0 initLossesDict 5).total_loss ≠ 1 + 1 + 5 := by
  norm_num [trainStepLosses, initLossesDict]

/-- C1, amended. For every training batch, `train_step` sets
`losses_dict['total_loss']` to the sum
`classification_loss + contrast_loss + reconstruction_loss` of the dict
entries before calling `backward`; but of the three components only the
reconstruction loss is the value computed on the batch:
`classification_loss` is set to the constant `0.0` and `contrast_loss` is
left at the value it held before the step (the contrastive and
classification loss computations being commented out). -/
theorem total_loss_is_sum_of_dict_entries (epoch : Int) (prev : LossesDict)
    (reconsLossVal : ℚ) (hep : epoch ≥ 0) :
    (trainStepLosses epoch prev reconsLossVal).total_loss
        = 0 + prev.contrast_loss + reconsLossVal ∧
    (trainStepLosses epoch prev reconsLossVal).classification_loss = 0 ∧
    (trainStepLosses epoch prev reconsLossVal).contrast_loss = prev.contrast_loss ∧
    (trainStepLosses epoch prev reconsLossVal).reconstruction_loss = reconsLossVal := by
  simp [trainStepLosses, hep]

/-- Witness for the amended C1 at epoch `0`, the initial dict and
reconstruction loss `5`. -/
theorem total_loss_is_sum_of_dict_entries_witness :
    (trainStepLosses 0 initLossesDict 5).total_loss
        = 0 + initLossesDict.contrast_loss + 5 ∧
    (trainStepLosses 0 initLossesDict 5).classification_loss = 0 ∧
    (trainStepLosses 0 initLossesDict 5).contrast_loss = initLossesDict.contrast_loss ∧
    (trainStepLosses 0 initLossesDict 5).reconstruction_loss = 5 :=
  total_loss_is_sum_of_dict_entries 0 initLossesDict 5 (by decide)

/-! ### The group split is group-aware -/

theorem groupIdsAux_length (l : List Item) :
    ∀ seen, (groupIdsAux seen l).length = l.length := by
  induction l with
  | nil => intro seen; simp [groupIdsAux]
  | cons it rest ih =>
    intro seen
    by_cases h : groupKey it ∈ seen
    · simp [groupIdsAux, h, ih]
    · simp [groupIdsAux, h, ih]

theorem extendSeen_cons (seen : List String) (it : Item) (rest : List Item) :
    extendSeen seen (it :: rest)
      = extendSeen (if groupKey it ∈ seen then seen else seen ++ [groupKey it]) rest := rfl

theorem extendSeen_append_suffix (l : List Item) :
    ∀ seen, ∃ t, extendSeen seen l = seen ++ t := by
  induction l with
  | nil => intro seen; exact ⟨[], by simp [extendSeen]⟩
  | cons it rest ih =>
    intro seen
    rw [extendSeen_cons]
    by_cases h : groupKey it ∈ seen
    · simpa [h] using ih seen
    · obtain ⟨t, ht⟩ := ih (seen ++ [groupKey it])
      refine ⟨groupKey it :: t, ?_⟩
      rw [if_neg h, ht]
      simp

theorem indexOf_extendSeen (l : List Item) (seen : List String) (k : String)
    (hk : k ∈ seen) : (extendSeen seen l).indexOf k = seen.indexOf k := by
  obtain ⟨t, ht⟩ := extendSeen_append_suffix l seen
  rw [ht, List.indexOf_append_of_mem hk]

/-- The id assigned by `group_data`'s loop to the item at position `i` is the
index of that item's group key in the final key table. -/
theorem groupIdsAux_getD (l : List Item) :
    ∀ (seen : List String) (i : Nat), i < l.length →
      (groupIdsAux seen l).getD i 0
        = (extendSeen seen l).indexOf (groupKey (l.getD i default)) := by
  induction l with
  | nil => intro seen i hi; simp at hi
  | cons it rest ih =>
    intro seen i hi
    rw [extendSeen_cons]
    by_cases h : groupKey it ∈ seen
    · rw [if_pos h]
      cases i with
      | zero =>
        simp only [groupIdsAux, if_pos h, List.getD_cons_zero]
        rw [indexOf_extendSeen rest seen _ h]
      | succ j =>
        simp only [groupIdsAux, if_pos h, List.getD_cons_succ]
        exact ih seen j (by simpa using hi)
    · rw [if_neg h]
      cases i with
      | zero =>
        simp only [groupIdsAux, if_neg h, List.getD_cons_zero]
        rw [indexOf_extendSeen rest (seen ++ [groupKey it]) _ (by simp),
          List.indexOf_append_of_not_mem h]
        simp
      | succ j =>
        simp only [groupIdsAux, if_neg h, List.getD_cons_succ]
        exact ih (seen ++ [groupKey it]) j (by simpa using hi)

/-- Two positions whose items share a group key receive the same group id. -/
theorem group_ids_eq_of_key_eq (l : List Item) (i j : Nat)
    (hi : i < l.length) (hj : j < l.length)
    (hkey : groupKey (l.getD i default) = groupKey (l.getD j default)) :
    (groupIdsAux [] l).getD i 0 = (groupIdsAux [] l).getD j 0 := by
  rw [groupIdsAux_getD l [] i hi, groupIdsAux_getD l [] j hj, hkey]

theorem group_data_snd (l : List Item) : (group_data l).snd = groupIdsAux [] l := rfl

theorem group_data_snd_length (l : List Item) : (group_data l).snd.length = l.length := by
  rw [group_data_snd]; exact groupIdsAux_length l []

/-- The `group_id` annotation does not change an item's group key. -/
theorem groupKey_group_data (l : List Item) (i : Nat) (hi : i < l.length) :
    groupKey ((group_data l).fst.getD i default) = groupKey (l.getD i default) := by
  have hlen : (groupIdsAux [] l).length = l.length := groupIdsAux_length l []
  have hz : (l.zip (groupIdsAux [] l)).length = l.length := by
    simp [List.length_zip, hlen]
  have hil : i < ((l.zip (groupIdsAux [] l)).map
      fun p => { p.fst with groupId := some p.snd } : List Item).length := by
    simpa [hz] using hi
  have hizip : i < (l.zip (groupIdsAux [] l)).length := by simpa [hz] using hi
  simp only [group_data]
  rw [List.getD_eq_getElem _ _ hil, List.getD_eq_getElem _ _ hi]
  simp only [List.getElem_map, List.getElem_zip]
  rfl

/-- C2. For every input `data_list` and every `test_size` strictly
between `0` and `1`, and for every draw of the group-shuffle splitter,
`create_datasets` keeps every acquisition group (items sharing a group key,
in `'scanner'` mode the first two characters of `SeriesDescription`) on one
side of the split: for every group key, the key has no member in `test_data`
or no member in `train_data`. -/
theorem create_datasets_group_aware (l : List Item) (test_size : ℚ) (toTest : Nat → Bool)
    (_h0 : 0 < test_size) (_h1 : test_size < 1) (key : String) :
    (∀ it ∈ (create_datasets l test_size toTest).snd, groupKey it ≠ key) ∨
    (∀ it ∈ (create_datasets l test_size toTest).fst, groupKey it ≠ key) := by
  by_cases hts : test_size ≤ 1 / 100000000
  · left
    intro it hit
    unfold create_datasets at hit
    rw [if_pos hts] at hit
    simp at hit
  · rw [or_iff_not_imp_left]
    intro hne
    push_neg at hne
    obtain ⟨it1, hit1, hkey1⟩ := hne
    intro it2 hit2 hkey2
    simp only [create_datasets, if_neg hts, groupShuffleSplit, List.mem_map,
      List.mem_filter, List.mem_range] at hit1 hit2
    obtain ⟨i, ⟨hi, hti⟩, hiti⟩ := hit1
    obtain ⟨j, ⟨hj, htj⟩, hitj⟩ := hit2
    rw [group_data_snd_length] at hi hj
    rw [group_data_snd] at hti htj
    have hkeyi : groupKey (l.getD i default) = key := by
      rw [← groupKey_group_data l i hi, hiti, hkey1]
    have hkeyj : groupKey (l.getD j default) = key := by
      rw [← groupKey_group_data l j hj, hitj, hkey2]
    have hgid : (groupIdsAux [] l).getD i 0 = (groupIdsAux [] l).getD j 0 :=
      group_ids_eq_of_key_eq l i j hi hj (by rw [hkeyi, hkeyj])
    rw [hgid] at hti
    rw [hti] at htj
    simp at htj

/-- Witness for C2: a concrete three-item list with two groups, a test size
of `1/2`, the draw that sends group `1` to the test side, and the group key
`"A1"`. -/
theorem create_datasets_group_aware_witness :
    (∀ it ∈ (create_datasets [⟨"A1a", none⟩, ⟨"A1b", none⟩, ⟨"B2a", none⟩]
        (1 / 2) (fun g => g == 1)).snd, groupKey it ≠ "A1") ∨
    (∀ it ∈ (create_datasets [⟨"A1a", none⟩, ⟨"A1b", none⟩, ⟨"B2a", none⟩]
        (1 / 2) (fun g => g == 1)).fst, groupKey it ≠ "A1") :=
  create_datasets_group_aware [⟨"A1a", none⟩, ⟨"A1b", none⟩, ⟨"B2a", none⟩]
    (1 / 2) (fun g => g == 1) (by norm_num) (by norm_num) "A1"

/-- C10. Whenever `test_size <= 0.00000001`, `create_datasets` returns
the input list itself as the training set — same elements, same order, with
no `group_id` annotation added — and an empty test set, without invoking the
group-splitting machinery. -/
theorem create_datasets_tiny_test_size (l : List Item) (test_size : ℚ) (toTest : Nat → Bool)
    (h : test_size ≤ 1 / 100000000) :
    create_datasets l test_size toTest = (l, []) := by
  unfold create_datasets
  rw [if_pos h]

/-- Witness for C10 at `test_size = 0` and a one-item list: the item comes
back unannotated and the test set is empty. -/
theorem create_datasets_tiny_test_size_witness :
    create_datasets [⟨"A1a", none⟩] 0 (fun _ => true) = ([⟨"A1a", none⟩], []) :=
  create_datasets_tiny_test_size [⟨"A1a", none⟩] 0 (fun _ => true) (by norm_num)

/-! ### Contrastive labels separate exactly the sample ids -/

/-- Every row produced while iterating over the unique ids `us` with running
offset comes from the `k`-th id of `us` for some `k` and carries the label
`offset + k * n`. -/
theorem mem_contrastiveRowsAux (ids : List Nat) (n : Nat) :
    ∀ (us : List Nat) (offset : Nat) (r : ContrastiveRow),
      r ∈ contrastiveRowsAux ids n us offset →
      ∃ k, k < us.length ∧ r.sampleId = us.getD k 0 ∧ r.label = offset + k * n := by
  intro us
  induction us with
  | nil => intro offset r hr; simp [contrastiveRowsAux] at hr
  | cons u rest ih =>
    intro offset r hr
    simp only [contrastiveRowsAux, List.mem_append] at hr
    rcases hr with hr | hr
    · have hru := List.eq_of_mem_replicate hr
      exact ⟨0, by simp, by simp [hru], by simp [hru]⟩
    · obtain ⟨k, hk, hid, hl⟩ := ih (offset + n) r hr
      refine ⟨k + 1, by simpa using hk, by simpa using hid, ?_⟩
      rw [hl]; ring

theorem torchUnique_nodup (ids : List Nat) : (torchUnique ids).Nodup :=
  (List.perm_insertionSort _ ids.dedup).symm.nodup (List.nodup_dedup ids)

/-- C5. Assuming the bottleneck tensor has non-zero spatial dimensions
(`n = D*H*W > 0` sub-patches per sample), two embedding rows passed to the
contrastive loss by `contrastive_step` receive the same label if and only if
they originate from batch samples with the same id: all sub-patch embeddings
of samples sharing an id get one common label, and rows of distinct ids get
distinct labels (the per-id offsets never collide). -/
theorem contrastive_labels_iff_same_id (ids : List Nat) (n : Nat) (hn : 0 < n)
    (r1 r2 : ContrastiveRow)
    (h1 : r1 ∈ contrastiveRows ids n) (h2 : r2 ∈ contrastiveRows ids n) :
    r1.label = r2.label ↔ r1.sampleId = r2.sampleId := by
  obtain ⟨k1, hk1, hid1, hl1⟩ := mem_contrastiveRowsAux ids n (torchUnique ids) 0 r1 h1
  obtain ⟨k2, hk2, hid2, hl2⟩ := mem_contrastiveRowsAux ids n (torchUnique ids) 0 r2 h2
  rw [hl1, hl2, hid1, hid2]
  constructor
  · intro h
    have hk : k1 = k2 := by
      have hmul : k1 * n = k2 * n := by omega
      exact Nat.eq_of_mul_eq_mul_right hn hmul
    rw [hk]
  · intro h
    rw [List.getD_eq_getElem _ _ hk1, List.getD_eq_getElem _ _ hk2] at h
    have hk : k1 = k2 := ((torchUnique_nodup ids).getElem_inj_iff).mp h
    rw [hk]

/-- Witness for C5: batch ids `[3, 3, 5]`, one sub-patch per sample.  The two
rows of id `3` share label `0`; the row of id `5` gets label `1`. -/
theorem contrastive_labels_iff_same_id_witness :
    (ContrastiveRow.mk 3 0).label = (ContrastiveRow.mk 5 1).label ↔
      (ContrastiveRow.mk 3 0).sampleId = (ContrastiveRow.mk 5 1).sampleId :=
  contrastive_labels_iff_same_id [3, 3, 5] 1 (by decide) ⟨3, 0⟩ ⟨5, 1⟩
    (by decide) (by decide)

/-! ### The dataset cache lifecycle and error handling of `Train.train` -/

theorem filter_loopBody (fails : Nat → Bool) (nb e : Nat) :
    (loopBody fails nb e).filter isLifecycleEv
      = List.replicate nb Ev.batch ++ [Ev.epochDone (e + 1), Ev.updateCache] := by
  unfold loopBody
  by_cases h5 : (e + 1) % 5 = 0
  · by_cases hf : fails (e + 1) <;>
      simp [h5, hf, isLifecycleEv, List.filter_append, List.filter_replicate]
  · simp [h5, isLifecycleEv, List.filter_append, List.filter_replicate]

theorem filter_runEpochs (fails : Nat → Bool) (nb N : Nat) :
    ∀ (d e : Nat), N - e = d →
      (runEpochs fails nb N e).filter isLifecycleEv
        = ((List.range' (e + 1) (N - e)).map fun m =>
            List.replicate nb Ev.batch ++ [Ev.epochDone m, Ev.updateCache]).flatten := by
  intro d
  induction d with
  | zero =>
    intro e hde
    have he : ¬ e < N := by omega
    rw [runEpochs, dif_neg he]
    simp [hde]
  | succ d ih =>
    intro e hde
    have he : e < N := by omega
    rw [runEpochs, dif_pos he, List.filter_append, filter_loopBody, ih (e + 1) (by omega)]
    have hne : N - e = (N - (e + 1)) + 1 := by omega
    rw [hne, List.range'_succ]
    simp

/-- C7. The method `Train.train` drives the cached train dataset through a strict
lifecycle: among the lifecycle-relevant events of its trace (train-dataset
`start()`, batch iterations, epoch completions, `update_cache()`,
train-dataset `shutdown()`), `start()` appears exactly once and before the
first batch, each of the `numEpoch` epochs is followed by exactly one
`update_cache()` call, and `shutdown()` appears exactly once, after the
final epoch — never before `start()` and never between epochs.  This holds
whatever the plotting failures. -/
theorem train_dataset_lifecycle (fails : Nat → Bool) (nb numEpoch : Nat) :
    (trainTrace fails nb numEpoch).filter isLifecycleEv
      = Ev.startTrain ::
          (((List.range' 1 numEpoch).map fun m =>
              List.replicate nb Ev.batch ++ [Ev.epochDone m, Ev.updateCache]).flatten
            ++ [Ev.shutdownTrain]) := by
  unfold trainTrace
  rw [List.filter_append, List.filter_append,
    filter_runEpochs fails nb numEpoch (numEpoch - 0) 0 rfl]
  simp [isLifecycleEv]

theorem map_scrubPlot_loopBody (fails : Nat → Bool) (nb e : Nat) :
    (loopBody fails nb e).map scrubPlot = (loopBody (fun _ => false) nb e).map scrubPlot := by
  unfold loopBody
  by_cases h5 : (e + 1) % 5 = 0
  · by_cases hf : fails (e + 1) <;> simp [h5, hf, scrubPlot]
  · simp [h5]

theorem map_scrubPlot_runEpochs (fails : Nat → Bool) (nb N : Nat) :
    ∀ (d e : Nat), N - e = d →
      (runEpochs fails nb N e).map scrubPlot
        = (runEpochs (fun _ => false) nb N e).map scrubPlot := by
  intro d
  induction d with
  | zero =>
    intro e hde
    have he : ¬ e < N := by omega
    conv_lhs => rw [runEpochs]
    conv_rhs => rw [runEpochs]
    rw [dif_neg he, dif_neg he]
  | succ d ih =>
    intro e hde
    have he : e < N := by omega
    conv_lhs => rw [runEpochs]
    conv_rhs => rw [runEpochs]
    rw [dif_pos he, dif_pos he, List.map_append, List.map_append,
      map_scrubPlot_loopBody, ih (e + 1) (by omega)]

theorem plotError_mem_loopBody (fails : Nat → Bool) (nb a e : Nat) :
    Ev.plotError e ∈ loopBody fails nb a ↔
      ((a + 1) % 5 = 0 ∧ fails (a + 1) = true ∧ e = a + 1) := by
  unfold loopBody
  by_cases h5 : (a + 1) % 5 = 0
  · by_cases hf : fails (a + 1) <;> simp [h5, hf, List.mem_replicate]
  · simp [h5, List.mem_replicate]

theorem plotError_mem_runEpochs (fails : Nat → Bool) (nb N e : Nat) :
    ∀ (d a : Nat), N - a = d →
      (Ev.plotError e ∈ runEpochs fails nb N a ↔
        (fails e = true ∧ e % 5 = 0 ∧ a + 1 ≤ e ∧ e ≤ N)) := by
  intro d
  induction d with
  | zero =>
    intro a hda
    have ha : ¬ a < N := by omega
    rw [runEpochs, dif_neg ha]
    constructor
    · intro h; exact absurd h (by simp)
    · rintro ⟨-, -, h1, h2⟩; omega
  | succ d ih =>
    intro a hda
    have ha : a < N := by omega
    rw [runEpochs, dif_pos ha, List.mem_append, plotError_mem_loopBody,
      ih (a + 1) (by omega)]
    constructor
    · rintro (⟨h5, hf, hea⟩ | ⟨hf, h5, h1, h2⟩)
      · subst hea; exact ⟨hf, h5, by omega, by omega⟩
      · exact ⟨hf, h5, by omega, h2⟩
    · rintro ⟨hf, h5, h1, h2⟩
      by_cases hea : e = a + 1
      · left; subst hea; exact ⟨h5, hf, rfl⟩
      · right; exact ⟨hf, h5, by omega, h2⟩

/-- C6. The guard around the optional latent-space visualization is
best-effort: (i) for every pattern of plotting failures, the trace of
`Train.train` is — once the success/failure marking of the plot events is
forgotten — identical to the trace of a run in which plotting never fails:
the epoch counter, the dataset cache lifecycle and the rest of the loop
proceed exactly as if every plotting call had succeeded; and (ii) a caught,
logged plotting error is recorded exactly at the epochs where
`plot_latent_space` raises, i.e. at the multiples of 5 among the completed
epochs `1..numEpoch` at which the call fails. -/
theorem plot_failures_contained (fails : Nat → Bool) (nb numEpoch : Nat) :
    ((trainTrace fails nb numEpoch).map scrubPlot
        = (trainTrace (fun _ => false) nb numEpoch).map scrubPlot) ∧
    (∀ e, Ev.plotError e ∈ trainTrace fails nb numEpoch ↔
        (fails e = true ∧ e % 5 = 0 ∧ 1 ≤ e ∧ e ≤ numEpoch)) := by
  constructor
  · unfold trainTrace
    rw [List.map_append, List.map_append, List.map_append, List.map_append,
      map_scrubPlot_runEpochs fails nb numEpoch (numEpoch - 0) 0 rfl]
  · intro e
    unfold trainTrace
    rw [List.mem_append, List.mem_append,
      plotError_mem_runEpochs fails nb numEpoch e (numEpoch - 0) 0 rfl]
    simp

/-! ### The CSV feature dump of `run_inference` -/

/-- C8. The function `run_inference` writes its feature dump to the CSV file
`torch_normalized_deepfeaturesoscar.csv` with a header row containing
exactly the seven field names `SeriesNumber, deepfeatures, ROI,
SeriesDescription, ManufacturerModelName, Manufacturer, SliceThickness` in
that order, followed by exactly one record per processed batch, each record
populating exactly those fields in that order. -/
theorem run_inference_csv_shape (batches : List BatchRecord) :
    (runInferenceCsv batches).fst = "torch_normalized_deepfeaturesoscar.csv" ∧
    (runInferenceCsv batches).snd.head? = some ["SeriesNumber", "deepfeatures", "ROI",
      "SeriesDescription", "ManufacturerModelName", "Manufacturer", "SliceThickness"] ∧
    (runInferenceCsv batches).snd.tail = batches.map recordRow ∧
    (runInferenceCsv batches).snd.length = batches.length + 1 ∧
    (∀ row ∈ (runInferenceCsv batches).snd.tail, row.length = csvFieldnames.length) := by
  refine ⟨rfl, rfl, rfl, by simp [runInferenceCsv], ?_⟩
  intro row hrow
  simp only [runInferenceCsv, List.tail_cons, List.mem_map] at hrow
  obtain ⟨b, -, hb⟩ := hrow
  rw [← hb]
  rfl

/-! ### The final return of `Train.train` raises `KeyError` -/

/-- C9. For every run of `Train.train` that completes all `num_epoch`
epochs, the final statement `return self.acc_dict['best_test_acc']` raises
`KeyError`: no statement executed by `train()` inserts the key
`'best_test_acc'` into `acc_dict` (the only writer, `test_epoch`, is never
called — its invocation is commented out), and `acc_dict` is initialised
without that key. -/
theorem train_return_raises_key_error (numEpoch : Nat) :
    trainReturn numEpoch = Except.error (PyErr.keyError "best_test_acc") := by
  have h : trainAccDict numEpoch = accDictInit := by
    induction numEpoch with
    | zero => rfl
    | succ n ih => simp [trainAccDict, loopBodyAccDict, ih]
  unfold trainReturn
  rw [h]
  rfl

end Harmonization
